import Mathlib

/-!
Verification of the claims about `src/redis-client.py`, a small asyncio
Redis client.  Bytes are modelled as lists of natural numbers below 256;
Python strings are modelled as lists of Unicode code points (also
natural numbers).  Every Python operation that the claims touch is
embedded as an executable Lean function translated from the source:
the request writers of `get`, `set`, `incr` and `send`, and the reply
decoder `_reply` together with the library routines it calls
(`int(...)`, `str.encode`, `bytes.decode`, `asyncio.StreamReader.read`).
-/

namespace RedisClient

/-- Helper producing the lowercase hexadecimal digit code for a value below 16. -/
def hexD (d : Nat) : Nat := if d < 10 then 48 + d else 87 + d

/-- Code points of a Lean string literal, used to spell out message text. -/
def strCP (s : String) : List Nat := s.data.map Char.toNat

/-- Decimal digit codes of a positive number, most significant first.  The
first argument is fuel, always instantiated with a value at least the
number itself, so the recursion is structural and kernel-reducible. -/
def natToDecAux : Nat → Nat → List Nat
  | 0, _ => []
  | _ + 1, 0 => []
  | fuel + 1, n + 1 => natToDecAux fuel ((n + 1) / 10) ++ [48 + (n + 1) % 10]

/-- Decimal digit codes of a natural number, as produced by Python `str`
or an f-string for a nonnegative `int`. -/
def natToDec (n : Nat) : List Nat :=
  if n = 0 then [48] else natToDecAux n n

/-- Value of a list of ASCII decimal digit codes, most significant first. -/
def digitsVal (l : List Nat) : Nat := l.foldl (fun a c => 10 * a + (c - 48)) 0

/-- ASCII whitespace recognised by Python `int()` when stripping the ends of
its argument (space, tab, newline, carriage return, vertical tab, form feed). -/
def isPySpace (c : Nat) : Bool := c == 32 || c == 9 || c == 10 || c == 13 || c == 11 || c == 12

/-- ASCII decimal digit test. -/
def isDigitB (c : Nat) : Bool := decide (48 ≤ c ∧ c ≤ 57)

/-- Whitespace stripping from both ends, as Python `int()` performs on its
string or bytes argument. -/
def pyStrip (s : List Nat) : List Nat :=
  ((s.dropWhile isPySpace).reverse.dropWhile isPySpace).reverse

/-- Sign and digit parsing of Python `int()`, applied after stripping. -/
def pyIntCore : List Nat → Option ℤ
  | [] => none
  | c :: cs =>
    if c = 45 then
      if cs ≠ [] ∧ cs.all isDigitB = true then some (-(digitsVal cs : ℤ)) else none
    else if c = 43 then
      if cs ≠ [] ∧ cs.all isDigitB = true then some ((digitsVal cs : ℤ)) else none
    else if (c :: cs).all isDigitB = true then some ((digitsVal (c :: cs) : ℤ)) else none

/-- Model of the Python builtin `int(x)` for `x` a `str` or `bytes` value,
as used by `_reply` on integer fields: whitespace is stripped from both
ends, an optional sign is read, and the remaining characters must be a
nonempty run of decimal digits; otherwise `ValueError` is raised,
modelled as `none`.  (Python additionally accepts underscore separators
and non-ASCII digits; those never occur on the inputs reaching this
model and are not modelled.) -/
def pyInt (s : List Nat) : Option ℤ := pyIntCore (pyStrip s)

/-- Decimal text of an integer, as produced by Python `str` on an `int`. -/
def pyStrInt (i : ℤ) : List Nat :=
  if i < 0 then 45 :: natToDec i.natAbs else natToDec i.toNat

lemma natToDecAux_mem {fuel n c : Nat} (h : c ∈ natToDecAux fuel n) :
    48 ≤ c ∧ c ≤ 57 := by
  induction fuel generalizing n with
  | zero => simp [natToDecAux] at h
  | succ fuel ih =>
    cases n with
    | zero => simp [natToDecAux] at h
    | succ m =>
      simp only [natToDecAux, List.mem_append, List.mem_singleton] at h
      rcases h with h | h
      · exact ih h
      · have : (m + 1) % 10 < 10 := Nat.mod_lt _ (by omega)
        omega

lemma natToDec_mem {n c : Nat} (h : c ∈ natToDec n) : 48 ≤ c ∧ c ≤ 57 := by
  unfold natToDec at h
  split at h
  · simp at h; omega
  · exact natToDecAux_mem h

lemma natToDec_ne_nil (n : Nat) : natToDec n ≠ [] := by
  unfold natToDec
  split
  · simp
  · rename_i h
    cases n with
    | zero => simp at h
    | succ m => simp [natToDecAux]

lemma foldl_natToDecAux (fuel : Nat) :
    ∀ n a, n ≤ fuel →
      List.foldl (fun x c => 10 * x + (c - 48)) a (natToDecAux fuel n)
        = a * 10 ^ (natToDecAux fuel n).length + n := by
  induction fuel with
  | zero =>
    intro n a h
    have : n = 0 := by omega
    subst this
    simp [natToDecAux]
  | succ fuel ih =>
    intro n a h
    cases n with
    | zero => simp [natToDecAux]
    | succ m =>
      have hdiv : (m + 1) / 10 ≤ fuel := by
        have := Nat.div_lt_self (by omega : 0 < m + 1) (by omega : 1 < 10)
        omega
      simp only [natToDecAux, List.foldl_append, List.foldl_cons, List.foldl_nil,
        List.length_append, List.length_singleton]
      rw [ih ((m + 1) / 10) a hdiv]
      have hmod : 10 * ((m + 1) / 10) + (m + 1) % 10 = m + 1 := by omega
      have hpow : a * 10 ^ ((natToDecAux fuel ((m + 1) / 10)).length + 1)
          = 10 * (a * 10 ^ (natToDecAux fuel ((m + 1) / 10)).length) := by
        rw [pow_succ]; ring
      rw [hpow]
      omega

lemma digitsVal_natToDec (n : Nat) : digitsVal (natToDec n) = n := by
  unfold natToDec digitsVal
  split
  · rename_i h
    subst h
    simp
  · rw [foldl_natToDecAux n n 0 (le_refl n)]
    simp

lemma isPySpace_digit {c : Nat} (h : 48 ≤ c ∧ c ≤ 57) : isPySpace c = false := by
  simp only [isPySpace, Bool.or_eq_false_iff, beq_eq_false_iff_ne]
  omega

lemma isPySpace_minus : isPySpace 45 = false := by decide

lemma isDigitB_of {c : Nat} (h : 48 ≤ c ∧ c ≤ 57) : isDigitB c = true := by
  simp [isDigitB]; omega

/-- Stripping a value that ends in a single carriage return and otherwise
holds no whitespace returns the value without the carriage return. -/
lemma pyStrip_cr (l : List Nat) (hne : l ≠ [])
    (hall : ∀ c ∈ l, isPySpace c = false) : pyStrip (l ++ [13]) = l := by
  unfold pyStrip
  have hfront : (l ++ [13]).dropWhile isPySpace = l ++ [13] := by
    cases l with
    | nil => exact absurd rfl hne
    | cons c cs =>
      have hc : isPySpace c = false := hall c (List.mem_cons_self c cs)
      rw [List.cons_append, List.dropWhile_cons, hc]
      simp
  rw [hfront]
  rcases List.eq_nil_or_concat l with rfl | ⟨m, c, rfl⟩
  · exact absurd rfl hne
  · have hc : isPySpace c = false := hall c (by simp)
    have h1 : ((m.concat c) ++ [13]).reverse = 13 :: c :: m.reverse := by simp
    rw [h1, List.dropWhile_cons]
    have h13 : isPySpace 13 = true := rfl
    rw [h13, if_pos rfl, List.dropWhile_cons, hc]
    simp

lemma pyInt_digits (l : List Nat) (hne : l ≠ [])
    (hd : ∀ c ∈ l, 48 ≤ c ∧ c ≤ 57) :
    pyInt (l ++ [13]) = some ((digitsVal l : ℤ)) := by
  have hsp : ∀ c ∈ l, isPySpace c = false := fun c hc => isPySpace_digit (hd c hc)
  unfold pyInt
  rw [pyStrip_cr l hne hsp]
  cases l with
  | nil => exact absurd rfl hne
  | cons c cs =>
    have hc := hd c (List.mem_cons_self c cs)
    have h45 : ¬ c = 45 := by omega
    have h43 : ¬ c = 43 := by omega
    have hall : (c :: cs).all isDigitB = true := by
      rw [List.all_eq_true]
      intro x hx
      exact isDigitB_of (hd x hx)
    rw [pyIntCore, if_neg h45, if_neg h43, if_pos hall]

lemma pyInt_natToDec_cr (n : Nat) : pyInt (natToDec n ++ [13]) = some (n : ℤ) := by
  rw [pyInt_digits (natToDec n) (natToDec_ne_nil n) (fun c hc => natToDec_mem hc),
    digitsVal_natToDec]

lemma pyInt_pyStrInt (i : ℤ) : pyInt (pyStrInt i ++ [13]) = some i := by
  unfold pyStrInt
  split
  · rename_i hneg
    have hall : ∀ c ∈ 45 :: natToDec i.natAbs, isPySpace c = false := by
      intro c hc
      rcases List.mem_cons.mp hc with rfl | hc
      · exact isPySpace_minus
      · exact isPySpace_digit (natToDec_mem hc)
    unfold pyInt
    rw [List.cons_append, ← List.cons_append, pyStrip_cr _ (by simp) hall]
    have hdig : (natToDec i.natAbs).all isDigitB = true := by
      rw [List.all_eq_true]
      intro x hx
      exact isDigitB_of (natToDec_mem hx)
    rw [pyIntCore, if_pos rfl, if_pos ⟨natToDec_ne_nil _, hdig⟩, digitsVal_natToDec]
    congr 1
    omega
  · rename_i hpos
    rw [pyInt_natToDec_cr]
    congr 1
    omega

/-- Unicode scalar values that Python `str.encode` accepts: code points
below 0x110000 that are not surrogates. -/
def validCP (c : Nat) : Bool := decide (c < 1114112 ∧ (c < 55296 ∨ 57344 ≤ c))

/-- UTF-8 encoding of one code point (meaningful for valid scalars). -/
def utf8EncodeChar (c : Nat) : List Nat :=
  if c < 128 then [c]
  else if c < 2048 then [192 + c / 64, 128 + c % 64]
  else if c < 65536 then [224 + c / 4096, 128 + c / 64 % 64, 128 + c % 64]
  else [240 + c / 262144, 128 + c / 4096 % 64, 128 + c / 64 % 64, 128 + c % 64]

/-- UTF-8 encoding of a code point list. -/
def utf8Encode : List Nat → List Nat
  | [] => []
  | c :: cs => utf8EncodeChar c ++ utf8Encode cs

/-- Model of Python `str.encode()` (strict UTF-8): fails, raising
`UnicodeEncodeError`, when the string holds a surrogate or an
unrepresentable value; otherwise yields the UTF-8 bytes. -/
def pyEncodeStr (cs : List Nat) : Option (List Nat) :=
  if cs.all validCP = true then some (utf8Encode cs) else none

/-- Model of Python `bytes.decode()` (strict UTF-8): a decoder rejecting
truncated sequences, stray continuation bytes, overlong forms, surrogates
and values above 0x10FFFF, exactly as CPython does; failure models
`UnicodeDecodeError`.  The first argument is fuel keeping the recursion
structural and kernel-reducible; every decoded scalar consumes at least
one byte and exactly one unit of fuel, so any fuel above the byte count
is enough, and `pyBytesDecode` below supplies it. -/
def utf8DecodeAux : Nat → List Nat → Option (List Nat)
  | 0, _ => none
  | _ + 1, [] => some []
  | fuel + 1, b :: t =>
    if b < 128 then (utf8DecodeAux fuel t).map (fun r => b :: r)
    else if b < 194 then none
    else if b < 224 then
      t.head?.bind (fun b1 =>
        if 128 ≤ b1 ∧ b1 < 192 then
          (utf8DecodeAux fuel (t.drop 1)).map
            (fun r => ((b - 192) * 64 + (b1 - 128)) :: r)
        else none)
    else if b < 240 then
      t.head?.bind (fun b1 =>
        (t.drop 1).head?.bind (fun b2 =>
          if (128 ≤ b1 ∧ b1 < 192) ∧ (128 ≤ b2 ∧ b2 < 192)
              ∧ (b = 224 → 160 ≤ b1) ∧ (b = 237 → b1 < 160) then
            (utf8DecodeAux fuel (t.drop 2)).map
              (fun r => ((b - 224) * 4096 + (b1 - 128) * 64 + (b2 - 128)) :: r)
          else none))
    else if b < 245 then
      t.head?.bind (fun b1 =>
        (t.drop 1).head?.bind (fun b2 =>
          (t.drop 2).head?.bind (fun b3 =>
            if (128 ≤ b1 ∧ b1 < 192) ∧ (128 ≤ b2 ∧ b2 < 192) ∧ (128 ≤ b3 ∧ b3 < 192)
                ∧ (b = 240 → 144 ≤ b1) ∧ (b = 244 → b1 < 144) then
              (utf8DecodeAux fuel (t.drop 3)).map
                (fun r => ((b - 240) * 262144 + (b1 - 128) * 4096
                  + (b2 - 128) * 64 + (b3 - 128)) :: r)
            else none)))
    else none

/-- Model of Python `bytes.decode()` on a byte list, supplying sufficient
fuel to `utf8DecodeAux`. -/
def pyBytesDecode (bs : List Nat) : Option (List Nat) :=
  utf8DecodeAux (bs.length + 1) bs

/-- Fuel irrelevance: any two sufficient fuel values decode alike. -/
lemma utf8DecodeAux_mono (f : Nat) :
    ∀ g s, s.length < f → s.length < g →
      utf8DecodeAux f s = utf8DecodeAux g s := by
  induction f with
  | zero => intro g s hf hg; omega
  | succ f ih =>
    intro g s hf hg
    cases g with
    | zero => omega
    | succ g =>
      cases s with
      | nil => rfl
      | cons b t =>
        simp only [List.length_cons] at hf hg
        have e0 : utf8DecodeAux f t = utf8DecodeAux g t :=
          ih g t (by omega) (by omega)
        have e1 : utf8DecodeAux f (t.drop 1) = utf8DecodeAux g (t.drop 1) :=
          ih g (t.drop 1) (by simp [List.length_drop]; omega)
            (by simp [List.length_drop]; omega)
        have e2 : utf8DecodeAux f (t.drop 2) = utf8DecodeAux g (t.drop 2) :=
          ih g (t.drop 2) (by simp [List.length_drop]; omega)
            (by simp [List.length_drop]; omega)
        have e3 : utf8DecodeAux f (t.drop 3) = utf8DecodeAux g (t.drop 3) :=
          ih g (t.drop 3) (by simp [List.length_drop]; omega)
            (by simp [List.length_drop]; omega)
        rw [utf8DecodeAux, utf8DecodeAux]
        rw [e0, e1, e2, e3]

/-- Decoding one encoded scalar at the head of a byte list peels it off. -/
lemma utf8DecodeAux_encodeChar (c : Nat) (h : validCP c = true) (rest : List Nat)
    (f : Nat) :
    utf8DecodeAux (f + 1) (utf8EncodeChar c ++ rest)
      = (utf8DecodeAux f rest).map (fun r => c :: r) := by
  rw [validCP] at h
  rw [decide_eq_true_eq] at h
  unfold utf8EncodeChar
  split
  · rename_i h1
    rw [List.singleton_append, utf8DecodeAux, if_pos h1]
  · split
    · rename_i h1 h2
      rw [List.cons_append, List.cons_append, List.nil_append, utf8DecodeAux]
      rw [if_neg (by omega), if_neg (by omega), if_pos (by omega)]
      simp only [List.head?_cons, Option.some_bind, List.drop_one, List.tail_cons]
      rw [if_pos (by omega)]
      have hv : (192 + c / 64 - 192) * 64 + (128 + c % 64 - 128) = c := by omega
      rw [hv]
    · split
      · rename_i h1 h2 h3
        rw [List.cons_append, List.cons_append, List.cons_append, List.nil_append,
          utf8DecodeAux]
        rw [if_neg (by omega), if_neg (by omega), if_neg (by omega), if_pos (by omega)]
        simp only [List.head?_cons, Option.some_bind, List.drop_one, List.tail_cons,
          List.drop_succ_cons, List.drop_zero]
        rw [if_pos (by omega)]
        have hv : (224 + c / 4096 - 224) * 4096 + (128 + c / 64 % 64 - 128) * 64
            + (128 + c % 64 - 128) = c := by omega
        rw [hv]
      · rename_i h1 h2 h3
        rw [List.cons_append, List.cons_append, List.cons_append, List.cons_append,
          List.nil_append, utf8DecodeAux]
        rw [if_neg (by omega), if_neg (by omega), if_neg (by omega), if_neg (by omega),
          if_pos (by omega)]
        simp only [List.head?_cons, Option.some_bind, List.drop_one, List.tail_cons,
          List.drop_succ_cons, List.drop_zero]
        rw [if_pos (by omega)]
        have hv : (240 + c / 262144 - 240) * 262144 + (128 + c / 4096 % 64 - 128) * 4096
            + (128 + c / 64 % 64 - 128) * 64 + (128 + c % 64 - 128) = c := by omega
        rw [hv]

/-- Round trip with explicit fuel counting scalars. -/
lemma utf8DecodeAux_encode (cs : List Nat) :
    ∀ f, cs.length < f → cs.all validCP = true →
      utf8DecodeAux f (utf8Encode cs) = some cs := by
  induction cs with
  | nil =>
    intro f hf _
    cases f with
    | zero => omega
    | succ f => rfl
  | cons c cs ih =>
    intro f hf h
    rw [List.all_cons, Bool.and_eq_true] at h
    cases f with
    | zero => omega
    | succ f =>
      rw [utf8Encode, utf8DecodeAux_encodeChar c h.1,
        ih f (by simp at hf ⊢; omega) h.2]
      rfl

lemma utf8Encode_length_ge (cs : List Nat) : cs.length ≤ (utf8Encode cs).length := by
  induction cs with
  | nil => simp [utf8Encode]
  | cons c cs ih =>
    rw [utf8Encode, List.length_append]
    have : 1 ≤ (utf8EncodeChar c).length := by
      unfold utf8EncodeChar
      split
      · simp
      · split
        · simp
        · split
          · simp
          · simp
    simp only [List.length_cons]
    omega

/-- Round trip: strict UTF-8 decoding inverts encoding of valid scalars. -/
lemma pyBytesDecode_encode (cs : List Nat) (h : cs.all validCP = true) :
    pyBytesDecode (utf8Encode cs) = some cs := by
  unfold pyBytesDecode
  exact utf8DecodeAux_encode cs _ (by have := utf8Encode_length_ge cs; omega) h

/-- ASCII byte lists decode to themselves. -/
lemma utf8DecodeAux_ascii (l : List Nat) :
    ∀ f, l.length < f → (∀ c ∈ l, c < 128) →
      utf8DecodeAux f l = some l := by
  induction l with
  | nil =>
    intro f hf _
    cases f with
    | zero => omega
    | succ f => rfl
  | cons c cs ih =>
    intro f hf h
    cases f with
    | zero => omega
    | succ f =>
      rw [utf8DecodeAux, if_pos (h c (List.mem_cons_self c cs)),
        ih f (by simp at hf ⊢; omega) (fun x hx => h x (List.mem_cons_of_mem c hx))]
      rfl

lemma pyBytesDecode_ascii (l : List Nat) (h : ∀ c ∈ l, c < 128) :
    pyBytesDecode l = some l :=
  utf8DecodeAux_ascii l _ (by omega) h

lemma utf8Encode_append (a b : List Nat) :
    utf8Encode (a ++ b) = utf8Encode a ++ utf8Encode b := by
  induction a with
  | nil => rfl
  | cons c cs ih => rw [List.cons_append, utf8Encode, utf8Encode, ih, List.append_assoc]

/-- Model of the byte-at-a-time line loop of `_reply`
(`while ch != b"\n": ch = await self.r.read(1); result += ch`): the
stream is the list of all bytes the peer sends before closing.  The
result holds the collected bytes, terminator included, and the rest of
the stream.  When no newline remains, `read(1)` returns the empty bytes
forever once the stream is exhausted and the source loop never
terminates; that divergence is modelled as `none`. -/
def readLine : List Nat → Option (List Nat × List Nat)
  | [] => none
  | c :: rest =>
    if c = 10 then some ([10], rest)
    else (readLine rest).map (fun p => (c :: p.1, p.2))

/-- Model of the counted read loop of `_reply`
(`while len(result) < data_length: result += await self.r.read(...)`):
it consumes exactly `n` bytes when the stream still holds that many,
and otherwise loops forever on the empty reads of a closed stream,
modelled as `none`.  `accumGo` below replays the loop chunk by chunk
and is proved to agree. -/
def readN (n : Nat) (s : List Nat) : Option (List Nat × List Nat) :=
  if n ≤ s.length then some (s.take n, s.drop n) else none

/-- Chunked replay of the counted read loop.  `sched` gives, per
iteration, how many bytes the transport chooses to deliver for
`read(k)`; the model clamps the choice between 1 and `k` and truncates
it at stream end, which is exactly the freedom `asyncio` leaves the
transport.  The fuel argument only bounds the iteration count; every
iteration on a nonempty stream consumes at least one byte, so a fuel
above the stream length never runs out (proved in `accumRead_readN`). -/
def accumGo : Nat → List Nat → Nat → List Nat → List Nat → Option (List Nat × List Nat)
  | 0, _, _, _, _ => none
  | _ + 1, acc, need, [], _ =>
    if acc.length < need then none else some (acc, [])
  | fuel + 1, acc, need, x :: xs, sched =>
    if acc.length < need then
      accumGo fuel
        (acc ++ (x :: xs).take (min (max (sched.headD 1) 1) (need - acc.length)))
        need
        ((x :: xs).drop (min (max (sched.headD 1) 1) (need - acc.length)))
        sched.tail
    else some (acc, x :: xs)

/-- Counted read loop starting from an empty accumulator. -/
def accumRead (need : Nat) (s : List Nat) (sched : List Nat) :
    Option (List Nat × List Nat) :=
  accumGo (s.length + 1) [] need s sched

lemma accumGo_eq (fuel : Nat) :
    ∀ acc need s sched, s.length < fuel →
      accumGo fuel acc need s sched
        = if need - acc.length ≤ s.length then
            some (acc ++ s.take (need - acc.length), s.drop (need - acc.length))
          else none := by
  induction fuel with
  | zero => intro acc need s sched h; omega
  | succ fuel ih =>
    intro acc need s sched h
    cases s with
    | nil =>
      rw [accumGo]
      by_cases hlt : acc.length < need
      · rw [if_pos hlt]
        simp only [List.length_nil]
        rw [if_neg (by omega)]
      · rw [if_neg hlt]
        have h0 : need - acc.length = 0 := by omega
        rw [h0]
        simp
    | cons x xs =>
      rw [accumGo]
      by_cases hlt : acc.length < need
      · rw [if_pos hlt]
        set k := min (max (sched.headD 1) 1) (need - acc.length) with hk
        have hk1 : 1 ≤ k := by
          rw [hk]
          have : 1 ≤ max (sched.headD 1) 1 := le_max_right _ _
          omega
        have hklen : ((x :: xs).drop k).length = (x :: xs).length - k := by
          simp [List.length_drop]
        have hlen : ((x :: xs).drop k).length < fuel := by
          simp only [List.length_cons] at h ⊢
          rw [hklen]
          simp only [List.length_cons]
          omega
        rw [ih _ need _ sched.tail hlen]
        have htk : (acc ++ (x :: xs).take k).length = acc.length + min k (x :: xs).length := by
          simp [List.length_take]
        by_cases hcase : k ≤ (x :: xs).length
        · have hmin : min k (x :: xs).length = k := by omega
          rw [htk, hmin, hklen]
          have harith : need - (acc.length + k) = need - acc.length - k := by omega
          have hkle : k ≤ need - acc.length := by rw [hk]; omega
          by_cases hfits : need - acc.length ≤ (x :: xs).length
          · rw [if_pos (by omega), if_pos (by omega)]
            rw [harith, List.append_assoc, ← List.take_add, List.drop_drop]
            have h1 : k + (need - acc.length - k) = need - acc.length := by omega
            rw [h1]
          · rw [if_neg (by omega), if_neg (by omega)]
        · have hxk : (x :: xs).length < k := by omega
          have hmin : min k (x :: xs).length = (x :: xs).length := by omega
          rw [htk, hmin, hklen]
          have hkle : k ≤ need - acc.length := by rw [hk]; omega
          rw [if_neg (by omega), if_neg (by omega)]
      · rw [if_neg hlt]
        have h0 : need - acc.length = 0 := by omega
        rw [h0]
        simp

/-- The chunked loop agrees with `readN` for every transport schedule:
short reads are retried until the requested count is satisfied, and a
stream closing early makes the loop diverge (`none`) rather than return. -/
lemma accumRead_readN (need : Nat) (s sched : List Nat) :
    accumRead need s sched = readN need s := by
  unfold accumRead readN
  rw [accumGo_eq (s.length + 1) [] need s sched (by omega)]
  simp

/-- Values a call of `_reply` can produce: a Python `int` for `:` tags,
a Python `str` (its code points) for `+` and `$` tags. -/
inductive PyVal where
  | intV (i : ℤ) : PyVal
  | strV (s : List Nat) : PyVal
deriving DecidableEq

/-- Outcome of a call of `_reply`: a returned value, a generic
`Exception` raised with a message (the error branch and the unknown-tag
branch both use this), a `UnicodeDecodeError` from `bytes.decode`, or a
`ValueError` from `int(...)`. -/
inductive PyOutcome where
  | ret (v : PyVal) : PyOutcome
  | exc (msg : List Nat) : PyOutcome
  | unicodeErr : PyOutcome
  | valueErr : PyOutcome
deriving DecidableEq

/-- Escapes of one byte inside a Python `bytes` repr using quote
character `q`. -/
def reprByteQ (q b : Nat) : List Nat :=
  if b = 92 then [92, 92]
  else if b = q then [92, q]
  else if b = 9 then [92, 116]
  else if b = 10 then [92, 110]
  else if b = 13 then [92, 114]
  else if 32 ≤ b ∧ b ≤ 126 then [b]
  else [92, 120, hexD (b / 16), hexD (b % 16)]

/-- Body of a Python `bytes` repr. -/
def reprCore (q : Nat) : List Nat → List Nat
  | [] => []
  | b :: t => reprByteQ q b ++ reprCore q t

/-- Model of `str(...)` on a `bytes` value, as an f-string applies it:
the repr `b...` quoted with a single quote, or a double quote when the
bytes contain a single quote and no double quote. -/
def reprBytes (bs : List Nat) : List Nat :=
  if 39 ∈ bs ∧ ¬ 34 ∈ bs then 98 :: 34 :: reprCore 34 bs ++ [34]
  else 98 :: 39 :: reprCore 39 bs ++ [39]

/-- Model of `Client._reply` of `src/redis-client.py` on a byte stream
`s` (all bytes the server sends before closing the connection).  The
result is `none` when the source code diverges (its read loops spin on
the empty reads of an exhausted stream), and otherwise the outcome
together with the bytes left unconsumed on the stream.  The parameter
`d` resolves the one transport nondeterminism the source observes: how
many bytes (clamped to 1..100, truncated at stream end) the single
`read(100)` of the unknown-tag branch returns. -/
def pyReply (d : Nat) (s : List Nat) : Option (PyOutcome × List Nat) :=
  match s with
  | [] => some (.exc (strCP ("Unkown tag: ") ++ reprBytes [] ++ strCP (", msg: ")), [])
  | tag :: rest =>
    if tag = 58 then
      match readLine rest with
      | none => none
      | some (line, r) =>
        match pyBytesDecode line.dropLast with
        | none => some (.unicodeErr, r)
        | some cps =>
          match pyInt cps with
          | none => some (.valueErr, r)
          | some i => some (.ret (.intV i), r)
    else if tag = 45 then
      match readLine rest with
      | none => none
      | some (line, r) =>
        match pyBytesDecode line.dropLast with
        | none => some (.unicodeErr, r)
        | some cps => some (.exc cps, r)
    else if tag = 36 then
      match readLine rest with
      | none => none
      | some (line, r) =>
        match pyInt line.dropLast with
        | none => some (.valueErr, r)
        | some len =>
          match readN (len + 2).toNat r with
          | none => none
          | some (data, r2) =>
            match pyBytesDecode data.dropLast.dropLast with
            | none => some (.unicodeErr, r2)
            | some cps => some (.ret (.strV cps), r2)
    else if tag = 43 then
      match readLine rest with
      | none => none
      | some (line, r) =>
        match pyBytesDecode line.dropLast with
        | none => some (.unicodeErr, r)
        | some cps => some (.ret (.strV cps), r)
    else
      match rest with
      | [] => some (.exc (strCP ("Unkown tag: ") ++ reprBytes [tag] ++ strCP (", msg: ")), [])
      | _ :: _ =>
        let m := min (max d 1) 100
        match pyBytesDecode (rest.take m) with
        | none => some (.unicodeErr, rest.drop m)
        | some mc =>
          some (.exc (strCP ("Unkown tag: ") ++ reprBytes [tag]
            ++ strCP (", msg: ") ++ mc), rest.drop m)

/-- Join built by `Client.send`:
`"".join([f"${len(arg)}\r\n{arg}\r\n" for arg in args])`.  Note that
`len(arg)` on a Python `str` counts characters (code points), not
encoded bytes. -/
def respArgs : List (List Nat) → List Nat
  | [] => []
  | a :: r => 36 :: (natToDec a.length ++ [13, 10] ++ a ++ [13, 10]) ++ respArgs r

/-- String built by `Client.send` before encoding:
`f"*{len(args)}\r\n{resp_args}"`. -/
def sendStr (args : List (List Nat)) : List Nat :=
  42 :: (natToDec args.length ++ [13, 10] ++ respArgs args)

/-- Wire bytes `Client.send` writes: the UTF-8 encoding of `sendStr`. -/
def sendWire (args : List (List Nat)) : Option (List Nat) :=
  pyEncodeStr (sendStr args)

/-- Wire bytes `Client.get` writes: the UTF-8 encoding of
`f"GET {key}\r\n"`. -/
def getWire (key : List Nat) : Option (List Nat) :=
  pyEncodeStr (71 :: 69 :: 84 :: 32 :: (key ++ [13, 10]))

/-- Wire bytes `Client.set` writes: the UTF-8 encoding of
`f"SET {key} {val}\r\n"`. -/
def setWire (key val : List Nat) : Option (List Nat) :=
  pyEncodeStr (83 :: 69 :: 84 :: 32 :: (key ++ 32 :: (val ++ [13, 10])))

/-- Wire bytes `Client.incr` writes: the UTF-8 encoding of
`f"INCR {key}\r\n"`. -/
def incrWire (key : List Nat) : Option (List Nat) :=
  pyEncodeStr (73 :: 78 :: 67 :: 82 :: 32 :: (key ++ [13, 10]))

/-- One public call of `Client.get`: the bytes written to the stream,
paired with the `_reply` decode of the reply stream `s`.  `none` when
the f-string cannot be UTF-8 encoded, in which case nothing is written. -/
def clientGet (key : List Nat) (d : Nat) (s : List Nat) :
    Option (List Nat × Option (PyOutcome × List Nat)) :=
  (getWire key).map (fun w => (w, pyReply d s))

/-- One public call of `Client.set`. -/
def clientSet (key val : List Nat) (d : Nat) (s : List Nat) :
    Option (List Nat × Option (PyOutcome × List Nat)) :=
  (setWire key val).map (fun w => (w, pyReply d s))

/-- One public call of `Client.incr`. -/
def clientIncr (key : List Nat) (d : Nat) (s : List Nat) :
    Option (List Nat × Option (PyOutcome × List Nat)) :=
  (incrWire key).map (fun w => (w, pyReply d s))

/-- One public call of `Client.send`. -/
def clientSend (args : List (List Nat)) (d : Nat) (s : List Nat) :
    Option (List Nat × Option (PyOutcome × List Nat)) :=
  (sendWire args).map (fun w => (w, pyReply d s))

lemma readLine_spec (pre rest : List Nat) (h : 10 ∉ pre) :
    readLine (pre ++ 10 :: rest) = some (pre ++ [10], rest) := by
  induction pre with
  | nil => simp [readLine]
  | cons c cs ih =>
    rw [List.cons_append, readLine]
    have hc : ¬ c = 10 := by
      intro e
      exact h (by rw [e]; exact List.mem_cons_self 10 cs)
    rw [if_neg hc, ih (fun hm => h (List.mem_cons_of_mem c hm))]
    rfl

lemma readN_exact (a b : List Nat) : readN a.length (a ++ b) = some (a, b) := by
  unfold readN
  rw [if_pos (by simp)]
  rw [List.take_left, List.drop_left]

lemma pyStrInt_mem {i : ℤ} {c : Nat} (h : c ∈ pyStrInt i) :
    c = 45 ∨ (48 ≤ c ∧ c ≤ 57) := by
  unfold pyStrInt at h
  split at h
  · rcases List.mem_cons.mp h with rfl | h
    · exact Or.inl rfl
    · exact Or.inr (natToDec_mem h)
  · exact Or.inr (natToDec_mem h)

/-- Behaviour of `_reply` on a well-formed integer reply
`:<decimal>\r\n`: the loop gathers the line, `int` parses it (the kept
carriage return is stripped as whitespace), and exactly the bytes of the
reply are consumed. -/
lemma reply_int (i : ℤ) (rest : List Nat) (d : Nat) :
    pyReply d (58 :: (pyStrInt i ++ [13, 10] ++ rest))
      = some (.ret (.intV i), rest) := by
  have h10 : 10 ∉ pyStrInt i ++ [13] := by
    intro hm
    rcases List.mem_append.mp hm with hm | hm
    · rcases pyStrInt_mem hm with h | h <;> omega
    · simp at hm
  have e1 : readLine (pyStrInt i ++ [13, 10] ++ rest)
      = some ((pyStrInt i ++ [13]) ++ [10], rest) := by
    rw [show pyStrInt i ++ [13, 10] ++ rest = (pyStrInt i ++ [13]) ++ 10 :: rest by simp]
    exact readLine_spec _ _ h10
  have e2 : ((pyStrInt i ++ [13]) ++ [10]).dropLast = pyStrInt i ++ [13] := by
    simp
  have e3 : pyBytesDecode (pyStrInt i ++ [13]) = some (pyStrInt i ++ [13]) := by
    refine pyBytesDecode_ascii _ (fun c hc => ?_)
    rcases List.mem_append.mp hc with hc | hc
    · rcases pyStrInt_mem hc with h | h <;> omega
    · simp at hc; omega
  have e4 : pyInt (pyStrInt i ++ [13]) = some i := pyInt_pyStrInt i
  simp only [pyReply, e1, e2, e3, e4]
  simp

/-- Behaviour of `_reply` on a well-formed error reply `-<msg>\r\n`
whose message decodes as UTF-8: a plain `Exception` is raised carrying
the message text together with the kept carriage return, and exactly
the bytes of the reply are consumed. -/
lemma reply_err (msg cps rest : List Nat) (d : Nat) (h10 : 10 ∉ msg)
    (hdec : pyBytesDecode (msg ++ [13]) = some cps) :
    pyReply d (45 :: (msg ++ [13, 10] ++ rest)) = some (.exc cps, rest) := by
  have h10b : 10 ∉ msg ++ [13] := by
    intro hm
    rcases List.mem_append.mp hm with hm | hm
    · exact h10 hm
    · simp at hm
  have e1 : readLine (msg ++ [13, 10] ++ rest) = some ((msg ++ [13]) ++ [10], rest) := by
    rw [show msg ++ [13, 10] ++ rest = (msg ++ [13]) ++ 10 :: rest by simp]
    exact readLine_spec _ _ h10b
  have e2 : ((msg ++ [13]) ++ [10]).dropLast = msg ++ [13] := by simp
  simp only [pyReply, e1, e2, hdec]
  simp

/-- Behaviour of `_reply` on a well-formed simple-string reply
`+<msg>\r\n` whose content decodes as UTF-8: the returned text keeps
the carriage return (only the newline is dropped by `result[:-1]`), and
exactly the bytes of the reply are consumed. -/
lemma reply_simple (msg cps rest : List Nat) (d : Nat) (h10 : 10 ∉ msg)
    (hdec : pyBytesDecode (msg ++ [13]) = some cps) :
    pyReply d (43 :: (msg ++ [13, 10] ++ rest)) = some (.ret (.strV cps), rest) := by
  have h10b : 10 ∉ msg ++ [13] := by
    intro hm
    rcases List.mem_append.mp hm with hm | hm
    · exact h10 hm
    · simp at hm
  have e1 : readLine (msg ++ [13, 10] ++ rest) = some ((msg ++ [13]) ++ [10], rest) := by
    rw [show msg ++ [13, 10] ++ rest = (msg ++ [13]) ++ 10 :: rest by simp]
    exact readLine_spec _ _ h10b
  have e2 : ((msg ++ [13]) ++ [10]).dropLast = msg ++ [13] := by simp
  simp only [pyReply, e1, e2, hdec]
  simp

/-- Behaviour of `_reply` on a well-formed bulk reply
`$<n>\r\n<payload>\r\n` whose `n`-byte payload is the UTF-8 encoding of
`cs`: the payload and trailing terminator are consumed by the counted
read, the terminator is stripped by `result[:-2]`, and the payload
decodes back to `cs`; exactly the bytes of the reply are consumed. -/
lemma reply_bulk (cs rest : List Nat) (d : Nat) (h : cs.all validCP = true) :
    pyReply d (36 :: (natToDec (utf8Encode cs).length ++ [13, 10]
        ++ (utf8Encode cs ++ [13, 10] ++ rest)))
      = some (.ret (.strV cs), rest) := by
  have hdig : ∀ c ∈ natToDec (utf8Encode cs).length ++ [13],
      (c = 13 ∨ (48 ≤ c ∧ c ≤ 57)) := by
    intro c hc
    rcases List.mem_append.mp hc with hc | hc
    · exact Or.inr (natToDec_mem hc)
    · simp at hc; omega
  have h10 : 10 ∉ natToDec (utf8Encode cs).length ++ [13] := by
    intro hm
    rcases hdig 10 hm with h | h <;> omega
  have e1 : readLine (natToDec (utf8Encode cs).length ++ [13, 10]
        ++ (utf8Encode cs ++ [13, 10] ++ rest))
      = some ((natToDec (utf8Encode cs).length ++ [13]) ++ [10],
          utf8Encode cs ++ [13, 10] ++ rest) := by
    rw [show natToDec (utf8Encode cs).length ++ [13, 10]
          ++ (utf8Encode cs ++ [13, 10] ++ rest)
        = (natToDec (utf8Encode cs).length ++ [13])
          ++ 10 :: (utf8Encode cs ++ [13, 10] ++ rest) by simp]
    exact readLine_spec _ _ h10
  have e2 : ((natToDec (utf8Encode cs).length ++ [13]) ++ [10]).dropLast
      = natToDec (utf8Encode cs).length ++ [13] := by simp
  have e3 : pyInt (natToDec (utf8Encode cs).length ++ [13])
      = some (((utf8Encode cs).length : ℤ)) := pyInt_natToDec_cr _
  have e4 : readN ((((utf8Encode cs).length : ℤ) + 2)).toNat
        (utf8Encode cs ++ [13, 10] ++ rest)
      = some (utf8Encode cs ++ [13, 10], rest) := by
    have ht : ((((utf8Encode cs).length : ℤ)) + 2).toNat
        = (utf8Encode cs ++ [13, 10]).length := by
      rw [List.length_append]
      simp only [List.length_cons, List.length_nil]
      omega
    rw [ht]
    exact readN_exact (utf8Encode cs ++ [13, 10]) rest
  have e5 : (utf8Encode cs ++ [13, 10]).dropLast.dropLast = utf8Encode cs := by
    rw [show utf8Encode cs ++ [13, 10] = (utf8Encode cs ++ [13]) ++ [10] by simp]
    simp
  have e6 : pyBytesDecode (utf8Encode cs) = some cs := pyBytesDecode_encode cs h
  simp only [pyReply, e1, e2, e3, e4, e5, e6]
  simp

/-- Behaviour of `_reply` on a well-formed bulk reply
`$<n>\r\n<payload>\r\n` with an arbitrary `n`-byte payload: the length
line, the payload and the trailing terminator are consumed exactly —
the counted read never inspects the payload bytes — and only then does
`result[:-2].decode()` run, returning the decoded text when the payload
is valid UTF-8 and raising `UnicodeDecodeError` otherwise; in both
cases the stream is left at the first byte after the reply. -/
lemma reply_bulk_any (p rest : List Nat) (d : Nat) :
    pyReply d (36 :: (natToDec p.length ++ [13, 10] ++ (p ++ [13, 10] ++ rest)))
      = some ((pyBytesDecode p).elim PyOutcome.unicodeErr
          (fun cs => PyOutcome.ret (.strV cs)), rest) := by
  have h10 : 10 ∉ natToDec p.length ++ [13] := by
    intro hm
    rcases List.mem_append.mp hm with hm | hm
    · have := natToDec_mem hm
      omega
    · simp at hm
  have e1 : readLine (natToDec p.length ++ [13, 10] ++ (p ++ [13, 10] ++ rest))
      = some ((natToDec p.length ++ [13]) ++ [10], p ++ [13, 10] ++ rest) := by
    rw [show natToDec p.length ++ [13, 10] ++ (p ++ [13, 10] ++ rest)
        = (natToDec p.length ++ [13]) ++ 10 :: (p ++ [13, 10] ++ rest) by simp]
    exact readLine_spec _ _ h10
  have e2 : ((natToDec p.length ++ [13]) ++ [10]).dropLast
      = natToDec p.length ++ [13] := by simp
  have e3 : pyInt (natToDec p.length ++ [13]) = some ((p.length : ℤ)) :=
    pyInt_natToDec_cr _
  have e4 : readN (((p.length : ℤ) + 2)).toNat (p ++ [13, 10] ++ rest)
      = some (p ++ [13, 10], rest) := by
    have ht : (((p.length : ℤ)) + 2).toNat = (p ++ [13, 10]).length := by
      rw [List.length_append]
      simp only [List.length_cons, List.length_nil]
      omega
    rw [ht]
    exact readN_exact (p ++ [13, 10]) rest
  have e5 : (p ++ [13, 10]).dropLast.dropLast = p := by
    rw [show p ++ [13, 10] = (p ++ [13]) ++ [10] by simp]
    simp
  cases hdec : pyBytesDecode p with
  | none =>
    simp only [pyReply, e1, e2, e3, e4, e5, hdec]
    simp [Option.elim]
  | some cs =>
    simp only [pyReply, e1, e2, e3, e4, e5, hdec]
    simp [Option.elim]

/-- Claim C1.  The claim states that `send` writes, per argument, a
length field holding the raw byte count of the argument.  The code
instead interpolates `len(arg)`, the character count of the Python
string: for the single argument `"é"` (code point 233) the wire request
is `*1\r\n$1\r\n` followed by the two UTF-8 bytes 195, 169 and `\r\n` —
a `$1` length field in front of a two-byte payload.  This theorem
evaluates the encoder at that failing input. -/
theorem c1_send_uses_char_count :
    sendWire [[233]] = some [42, 49, 13, 10, 36, 49, 13, 10, 195, 169, 13, 10]
      ∧ (utf8EncodeChar 233).length = 2 := by
  constructor
  · decide
  · decide

/-- Claim C2, counterexample.  Decoding `$1\r\n` + the byte 0xFF +
`\r\n` does not yield that byte back: the final `result[:-2].decode()`
raises `UnicodeDecodeError`, so the decoder is not binary safe. -/
theorem c2_counterexample :
    pyReply 1 [36, 49, 13, 10, 255, 13, 10] = some (.unicodeErr, [])
      ∧ (PyOutcome.unicodeErr ≠ PyOutcome.ret (.strV [255])) := by
  constructor
  · decide
  · decide

/-- Claim C2, amended.  For every payload that is the UTF-8 encoding of
some text `cs` (the payload may contain 13 and 10 freely), decoding
`$<n>\r\n` + payload + `\r\n` consumes exactly those bytes and returns
the text `cs`, recovering the payload bytes exactly; payloads that are
not valid UTF-8 instead raise `UnicodeDecodeError`. -/
theorem c2_bulk_roundtrip (cs rest : List Nat) (d : Nat)
    (h : cs.all validCP = true) :
    pyReply d (36 :: (natToDec (utf8Encode cs).length ++ [13, 10]
        ++ (utf8Encode cs ++ [13, 10] ++ rest)))
      = some (.ret (.strV cs), rest) :=
  reply_bulk cs rest d h

/-- Claim C2, witness: the payload `\r\n` itself (bytes 13, 10) round
trips through a bulk reply. -/
theorem c2_bulk_roundtrip_witness :
    pyReply 1 [36, 50, 13, 10, 13, 10, 13, 10] = some (.ret (.strV [13, 10]), []) := by
  have h := c2_bulk_roundtrip [13, 10] [] 1 (by decide)
  rw [show (36 :: (natToDec (utf8Encode [13, 10]).length ++ [13, 10]
      ++ (utf8Encode [13, 10] ++ [13, 10] ++ ([] : List Nat))))
    = [36, 50, 13, 10, 13, 10, 13, 10] from by decide] at h
  exact h

/-- Claim C3.  The claim states that decoding `$-1\r\n` yields a
null/absent bulk string.  The code computes `data_length = -1 + 2 = 1`,
reads one byte beyond the reply (here the `+` of the following
`+OK\r\n`), and returns the empty string: evaluated on the stream
`$-1\r\nOK\r\n` remainder, the outcome is the empty string with the
next reply corrupted to `OK\r\n`. -/
theorem c3_null_bulk_returns_empty :
    pyReply 1 [36, 45, 49, 13, 10, 43, 79, 75, 13, 10]
      = some (.ret (.strV []), [79, 75, 13, 10]) := by
  decide

/-- Claim C4.  For every integer `i`, decoding `:` + the signed decimal
text of `i` + `\r\n` yields the integer `i` (the carriage return kept by
`result[:-1]` is stripped by `int()` as whitespace), consuming exactly
the reply. -/
theorem c4_integer_decode (i : ℤ) (rest : List Nat) (d : Nat) :
    pyReply d (58 :: (pyStrInt i ++ [13, 10] ++ rest))
      = some (.ret (.intV i), rest) :=
  reply_int i rest d

/-- Claim C5.  The claim states that decoding `+OK\r\n` yields `OK`.
The code returns `result[:-1].decode()`, which strips only the newline:
the outcome is the three characters `O`, `K`, carriage return. -/
theorem c5_simple_string_keeps_cr :
    pyReply 1 [43, 79, 75, 13, 10] = some (.ret (.strV [79, 75, 13]), [])
      ∧ ([79, 75, 13] : List Nat) ≠ [79, 75] := by
  constructor
  · decide
  · decide

/-- Claim C6, counterexample.  Decoding `-ERR some message\r\n` raises
an exception whose message is `ERR some message\r` — with a trailing
carriage return — not `ERR some message`. -/
theorem c6_counterexample :
    pyReply 1 [45, 69, 82, 82, 32, 115, 111, 109, 101, 32, 109, 101,
        115, 115, 97, 103, 101, 13, 10]
      = some (.exc [69, 82, 82, 32, 115, 111, 109, 101, 32, 109, 101,
          115, 115, 97, 103, 101, 13], [])
      ∧ ([69, 82, 82, 32, 115, 111, 109, 101, 32, 109, 101, 115, 115,
          97, 103, 101, 13] : List Nat) ≠ strCP ("ERR some message") := by
  constructor
  · decide
  · decide

/-- Claim C6, amended.  Decoding a well-formed error reply
`-<message>\r\n` raises the plain generic `Exception` carrying the
message text plus a kept trailing carriage return, consuming exactly
the bytes of the reply (the connection stream stays positioned at the
next reply); the same generic exception constructor is what the
unknown-tag protocol failure uses, so the two are not distinguishable
by type — shown by the second conjunct evaluating an unrecognised tag. -/
theorem c6_error_reply :
    (∀ msg cps rest d, 10 ∉ msg → pyBytesDecode (msg ++ [13]) = some cps →
      pyReply d (45 :: (msg ++ [13, 10] ++ rest)) = some (.exc cps, rest))
      ∧ pyReply 1 [63, 88]
        = some (.exc (strCP ("Unkown tag: ") ++ reprBytes [63]
            ++ strCP (", msg: ") ++ [88]), []) := by
  constructor
  · intro msg cps rest d h10 hdec
    exact reply_err msg cps rest d h10 hdec
  · decide

/-- Claim C6, witness: the error reply `-X\r\n` raises the generic
exception with message `X\r`, leaving the stream empty. -/
theorem c6_error_reply_witness :
    pyReply 1 [45, 88, 13, 10] = some (.exc [88, 13], []) := by
  have h := c6_error_reply.1 [88] [88, 13] [] 1 (by decide) (by decide)
  exact h

/-- Claim C7, counterexample.  The decoder does not always consume
precisely one reply: on the stream `$-1\r\n` followed by the byte `X`,
the null-bulk reply makes it read one byte too many, leaving the stream
empty instead of positioned at `X`. -/
theorem c7_counterexample :
    pyReply 1 [36, 45, 49, 13, 10, 88] = some (.ret (.strV []), []) := by
  decide

/-- Claim C7, amended.  For every well-formed integer, error,
simple-string, and nonnegative-length bulk reply — the bulk payload
being arbitrary bytes — the decoder consumes precisely the bytes of
that one reply, leaving the stream at the first byte of the next reply
(for bulk replies the outcome is the decoded text when the payload is
valid UTF-8 and a `UnicodeDecodeError` otherwise, raised only after the
counted read, so consumption is exact either way); the exactness fails
for the null bulk reply `$-1\r\n` (one extra byte, see the
counterexample) and for rejected unknown tags (up to 100 diagnostic
bytes). -/
theorem c7_exact_consumption :
    (∀ (i : ℤ) (rest : List Nat) (d : Nat),
      pyReply d (58 :: (pyStrInt i ++ [13, 10] ++ rest))
        = some (.ret (.intV i), rest))
    ∧ (∀ msg cps rest d, 10 ∉ msg → pyBytesDecode (msg ++ [13]) = some cps →
        pyReply d (45 :: (msg ++ [13, 10] ++ rest)) = some (.exc cps, rest))
    ∧ (∀ msg cps rest d, 10 ∉ msg → pyBytesDecode (msg ++ [13]) = some cps →
        pyReply d (43 :: (msg ++ [13, 10] ++ rest))
          = some (.ret (.strV cps), rest))
    ∧ (∀ (p rest : List Nat) (d : Nat),
        pyReply d (36 :: (natToDec p.length ++ [13, 10] ++ (p ++ [13, 10] ++ rest)))
          = some ((pyBytesDecode p).elim PyOutcome.unicodeErr
              (fun cs => PyOutcome.ret (.strV cs)), rest)) := by
  refine ⟨fun i rest d => reply_int i rest d,
    fun msg cps rest d h10 hdec => reply_err msg cps rest d h10 hdec,
    fun msg cps rest d h10 hdec => reply_simple msg cps rest d h10 hdec,
    fun p rest d => reply_bulk_any p rest d⟩

/-- Claim C7, witness: the simple-string reply `+X\r\n` is consumed
exactly (discharging the decodability hypotheses at a concrete input),
and the bulk reply `$1\r\n` + `0xFF` + `\r\n` followed by the byte `B`
is consumed exactly even though its binary payload fails to decode,
leaving `B` on the stream. -/
theorem c7_exact_consumption_witness :
    pyReply 1 [43, 88, 13, 10] = some (.ret (.strV [88, 13]), [])
      ∧ pyReply 1 [36, 49, 13, 10, 255, 13, 10, 66]
        = some (.unicodeErr, [66]) := by
  constructor
  · exact c7_exact_consumption.2.2.1 [88] [88, 13] [] 1 (by decide) (by decide)
  · have h := c7_exact_consumption.2.2.2 [255] [66] 1
    rw [show (36 :: (natToDec ([255] : List Nat).length ++ [13, 10]
        ++ ([255] ++ [13, 10] ++ [66])))
      = [36, 49, 13, 10, 255, 13, 10, 66] from by decide] at h
    exact h.trans (by decide)

/-- Claim C8.  The claim states that a stream closing before a line
terminator or before the requested count makes decoding terminate with
a decode error.  It does not: the source loops re-read the empty bytes
of the exhausted stream forever, modelled as `none` — shown here on the
truncated integer reply `:12` and the truncated bulk reply `$5\r\nAB`.
The claim is right that a short read alone is never an error: the
chunked replay of the counted read loop agrees with `readN` under every
transport chunking schedule. -/
theorem c8_closed_stream_diverges :
    pyReply 1 [58, 49, 50] = none
    ∧ pyReply 1 [36, 53, 13, 10, 65, 66] = none
    ∧ (∀ (need : Nat) (s sched : List Nat), accumRead need s sched = readN need s) := by
  refine ⟨by decide, by decide, accumRead_readN⟩

/-- Claim C9, counterexample.  `get("k")` does not write the bytes of
`send("GET", "k")`: the former writes the inline command `GET k\r\n`,
the latter the multi-bulk `*2\r\n$3\r\nGET\r\n$1\r\nk\r\n`. -/
theorem c9_counterexample :
    getWire [107] = some [71, 69, 84, 32, 107, 13, 10]
    ∧ sendWire [[71, 69, 84], [107]]
        = some [42, 50, 13, 10, 36, 51, 13, 10, 71, 69, 84, 13, 10,
            36, 49, 13, 10, 107, 13, 10]
    ∧ getWire [107] ≠ sendWire [[71, 69, 84], [107]] := by
  refine ⟨by decide, by decide, by decide⟩

/-- Claim C9, amended.  `get`, `set` and `incr` are inline-form
conveniences, not wrappers over `send`: `get(k)` writes exactly the
UTF-8 bytes of `GET <k>\r\n`, `set(k,v)` of `SET <k> <v>\r\n`,
`incr(k)` of `INCR <k>\r\n`, and each performs one write-flush-decode
cycle using the same `_reply` decoder as `send`; the bytes differ from
the equivalent `send` call (see the counterexample). -/
theorem c9_inline_wrappers :
    (∀ key d s, key.all validCP = true →
      clientGet key d s
        = some (utf8Encode (71 :: 69 :: 84 :: 32 :: (key ++ [13, 10])), pyReply d s))
    ∧ (∀ key val d s, key.all validCP = true → val.all validCP = true →
        clientSet key val d s
          = some (utf8Encode (83 :: 69 :: 84 :: 32 :: (key ++ 32 :: (val ++ [13, 10]))),
              pyReply d s))
    ∧ (∀ key d s, key.all validCP = true →
        clientIncr key d s
          = some (utf8Encode (73 :: 78 :: 67 :: 82 :: 32 :: (key ++ [13, 10])),
              pyReply d s)) := by
  refine ⟨?_, ?_, ?_⟩
  · intro key d s h
    unfold clientGet getWire pyEncodeStr
    rw [if_pos (by simp [List.all_append, h]; decide)]
    rfl
  · intro key val d s hk hv
    unfold clientSet setWire pyEncodeStr
    rw [if_pos (by simp [List.all_append, List.all_cons, hk, hv]; decide)]
    rfl
  · intro key d s h
    unfold clientIncr incrWire pyEncodeStr
    rw [if_pos (by simp [List.all_append, h]; decide)]
    rfl

/-- Claim C9, witness: `get("k")` against the reply stream `+OK\r\n`
writes `GET k\r\n` and decodes the simple-string outcome. -/
theorem c9_inline_wrappers_witness :
    clientGet [107] 1 [43, 79, 75, 13, 10]
      = some ([71, 69, 84, 32, 107, 13, 10],
          some (.ret (.strV [79, 75, 13]), [])) := by
  have h := c9_inline_wrappers.1 [107] 1 [43, 79, 75, 13, 10] (by decide)
  exact h.trans (by decide)

/-- Claim C10, counterexample.  `send()` with no arguments does produce
a wire request. -/
theorem c10_counterexample : sendWire [] ≠ none := by
  decide

/-- Claim C10, amended.  `send` does not fail on the empty argument
list: it writes the four bytes `*0\r\n` (an empty multi-bulk header
with no argument entries) and then waits for a reply. -/
theorem c10_empty_send_writes_header :
    sendWire [] = some [42, 48, 13, 10] := by
  decide

end RedisClient
